import Mathlib

/-!
Verification of the link lifecycle manager of `soundstreamer.py`
(pipewire-simple-audio-link).

The program talks to an external PipeWire graph through three commands:
a query command (`pw-dump`, JSON output), a link-creation command
(`pw-link out in`) and a link-deletion command (`pw-link -d out in`).
We embed the Python code shallowly:

* the outcome of one external command invocation is an explicit input of
  the embedded function (a `Bool` for the mutation commands, where
  `false` covers both a non-zero exit code and a process-spawn failure,
  since the Python code converts both to the same `return False` with no
  registry mutation);
* a query result is `Option (List PWObject)`: `none` models a non-zero
  exit code or output that fails to parse as the expected structure
  (both are converted by the Python code to the same fail-open result);
* the mutable `internal_links` list is threaded explicitly as a
  `Registry` value.
-/

namespace SoundStreamer

/-- One object of the query command's JSON output, restricted to the
fields the program reads.  `id` and the link endpoint ids are `Option`
because the Python code reads them with `.get` (default `None`);
`mediaClass` and `mediaName` carry the empty string as their default
because the Python code reads them with `.get(key, "")`. -/
structure PWObject where
  type : String
  id : Option Nat
  outputNodeId : Option Nat
  inputNodeId : Option Nat
  mediaClass : String
  applicationName : Option String
  nodeName : Option String
  mediaName : String
deriving DecidableEq, Repr

/-- A query command outcome: `none` is a failed or unparseable dump. -/
abbrev Dump := Option (List PWObject)

/-- The `internal_links` list of `PipewireManager`: ordered pairs
`(outputNodeId, inputNodeId)`. -/
abbrev Registry := List (Nat × Nat)

/-- Does the first character list start with the second? -/
def listStartsWith : List Char → List Char → Bool
  | _, [] => true
  | [], _ :: _ => false
  | a :: as, b :: bs => a == b && listStartsWith as bs

/-- Is the second character list a contiguous infix of the first? -/
def listHasInfix : List Char → List Char → Bool
  | hay, needle =>
    match hay with
    | [] => needle.isEmpty
    | _ :: rest => listStartsWith hay needle || listHasInfix rest needle

/-- Substring containment, embedding the Python `needle in hay` test on
strings. -/
def strContains (hay needle : String) : Bool :=
  listHasInfix hay.toList needle.toList

/-- First outcome of an external-command outcome list, with the failure
outcome as default when the list is exhausted. -/
def headOk : List Bool → Bool
  | [] => false
  | b :: _ => b

/-- Does one dump object record a link between the given nodes?
Embeds the per-object test of `PipewireManager.link_exists`. -/
def linkMatches (o i : Nat) (obj : PWObject) : Bool :=
  obj.type == "PipeWire:Interface:Link" &&
  obj.outputNodeId == some o && obj.inputNodeId == some i

/-- `PipewireManager.link_exists`: scan the dump for a matching link
object.  A failed dump (`none`) yields `false` (fail-open): the Python
code returns `False` both on a non-zero exit code and from the broad
exception handler around JSON parsing. -/
def link_exists (dump : Dump) (o i : Nat) : Bool :=
  match dump with
  | none => false
  | some objs => objs.any (linkMatches o i)

/-- `link_exists` as a registry transformer: the Python method never
touches `internal_links`, so the embedded state is returned unchanged. -/
def link_exists_st (dump : Dump) (o i : Nat) (st : Registry) :
    Bool × Registry :=
  (link_exists dump o i, st)

/-- Outcome of one `create_link` call: the returned boolean, the
registry afterwards, and whether the external creation command was
invoked at all. -/
structure CreateResult where
  result : Bool
  registry : Registry
  attemptedCmd : Bool
deriving DecidableEq, Repr

/-- `PipewireManager.create_link`.  If the link already exists in the
dump, return `False` without running the creation command; otherwise run
it (`cmdOk` is its outcome), and append the pair to `internal_links`
exactly when it exited 0. -/
def create_link (dump : Dump) (cmdOk : Bool) (st : Registry)
    (o i : Nat) : CreateResult :=
  if link_exists dump o i then
    ⟨false, st, false⟩
  else if cmdOk then
    ⟨true, st ++ [(o, i)], true⟩
  else
    ⟨false, st, true⟩

/-- `PipewireManager.remove_link`.  Run the deletion command; on exit 0
the Python code calls `internal_links.remove(pair)`, which deletes the
first occurrence of the pair but raises `ValueError` when the pair is
absent — the surrounding `except` then returns `False` with the list
untouched.  On non-zero exit (or spawn failure) return `False` with the
list untouched. -/
def remove_link (cmdOk : Bool) (st : Registry) (o i : Nat) :
    Bool × Registry :=
  if cmdOk then
    if (o, i) ∈ st then (true, st.erase (o, i))
    else (false, st)
  else (false, st)

/-- The loop of `PipewireManager.remove_all_links`: iterate over a copy
of `internal_links` (`internal_links[:]`), calling `remove_link` on the
live registry for each pair; `oks` supplies the deletion command's
outcome for each successive call.  Returns the list of attempted pairs
and the live registry after the loop. -/
def removeAllPass : List Bool → List (Nat × Nat) → Registry →
    List (Nat × Nat) × Registry
  | _, [], live => ([], live)
  | oks, p :: rest, live =>
    let stepOut := remove_link (headOk oks) live p.1 p.2
    let next := removeAllPass oks.tail rest stepOut.2
    (p :: next.1, next.2)

/-- `PipewireManager.remove_all_links`: run the removal pass over a copy
of the registry, then `internal_links.clear()`.  Returns the attempted
pairs (in order) and the final registry. -/
def remove_all_links (oks : List Bool) (st : Registry) :
    List (Nat × Nat) × Registry :=
  ((removeAllPass oks st st).1, [])

/-- One `PipewireManager` call, with the outcomes of the external
commands it runs recorded as arguments: a whole session of the manager
is a list of these. -/
inductive Op where
  | createOp (dump : Dump) (cmdOk : Bool) (o i : Nat)
  | removeOp (cmdOk : Bool) (o i : Nat)
  | removeAllOp (oks : List Bool)
deriving Repr

/-- Registry after one manager call. -/
def stepOp (st : Registry) : Op → Registry
  | .createOp dump ok o i => (create_link dump ok st o i).registry
  | .removeOp ok o i => (remove_link ok st o i).2
  | .removeAllOp oks => (remove_all_links oks st).2

/-- Registry after a sequence of manager calls. -/
def runOps : Registry → List Op → Registry
  | st, [] => st
  | st, op :: rest => runOps (stepOp st op) rest

/-- Graph-faithfulness of one call: a `create` is faithful when every
pair already in the registry is visible in the dump it queries (the
query succeeded and still reports the link this process created).
`remove` and `removeAll` never consult the dump. -/
def faithfulStep (st : Registry) : Op → Bool
  | .createOp dump _ o i => !(decide ((o, i) ∈ st)) || link_exists dump o i
  | _ => true

/-- Graph-faithfulness of a whole call sequence, checked against the
registry state each call actually runs in. -/
def faithfulRun : Registry → List Op → Bool
  | _, [] => true
  | st, op :: rest => faithfulStep st op && faithfulRun (stepOp st op) rest

/-- External-command outcomes consumed by one `create_link` call inside
a batch: the dump its `link_exists` query sees, and the creation
command's exit status. -/
abbrev CreateEnv := List (Dump × Bool)

/-- First per-call outcome of a batch-create environment, with a failed
query and a failed command as default when the list is exhausted. -/
def headEnv : CreateEnv → Dump × Bool
  | [] => (none, false)
  | e :: _ => e

/-- Outcome of a (partial) batch-create pass: the accumulated success
count, the trace of `create_link` calls (pair and returned boolean, in
call order), the registry afterwards, and the environment left for the
remaining calls. -/
structure PassOut where
  count : Nat
  calls : List ((Nat × Nat) × Bool)
  registry : Registry
  env : CreateEnv
deriving Repr

/-- Inner loop of `AudioRouterApp.create_links`: one selected source
against every selected target, in list order. -/
def targetPass (s : Nat) : List Nat → CreateEnv → Registry → PassOut
  | [], env, st => ⟨0, [], st, env⟩
  | t :: ts, env, st =>
    let e := headEnv env
    let c := create_link e.1 e.2 st s t
    let next := targetPass s ts env.tail c.registry
    ⟨(if c.result then 1 else 0) + next.count,
      ((s, t), c.result) :: next.calls, next.registry, next.env⟩

/-- Outer loop of `AudioRouterApp.create_links` over the selected
sources. -/
def sourcePass : List Nat → List Nat → CreateEnv → Registry → PassOut
  | [], _, env, st => ⟨0, [], st, env⟩
  | s :: ss, ts, env, st =>
    let first := targetPass s ts env st
    let rest := sourcePass ss ts first.env first.registry
    ⟨first.count + rest.count, first.calls ++ rest.calls,
      rest.registry, rest.env⟩

/-- `AudioRouterApp.create_links`: `create_link` once per
`(source, target)` pair of the Cartesian product, accumulating the
success count.  (With an empty selection the Python code returns early
after a warning dialog; no `create_link` call is made, as here.) -/
def create_links (env : CreateEnv) (st : Registry)
    (sources targets : List Nat) : PassOut :=
  sourcePass sources targets env st

/-- Outcome of `AudioRouterApp.remove_selected_links`: the links whose
removal succeeded (these are dropped from the display list), the trace
of `remove_link` calls, and the registry afterwards. -/
structure BatchRemoveOut where
  removed : List (Nat × Nat)
  calls : List ((Nat × Nat) × Bool)
  registry : Registry
deriving Repr

/-- `AudioRouterApp.remove_selected_links`: call `remove_link` for each
selected link in order (`oks` supplies each deletion command's outcome);
a link is taken out of the display list exactly when its call returned
`True`. -/
def remove_selected : List Bool → Registry → List (Nat × Nat) →
    BatchRemoveOut
  | _, st, [] => ⟨[], [], st⟩
  | oks, st, p :: rest =>
    let r := remove_link (headOk oks) st p.1 p.2
    let next := remove_selected oks.tail r.2 rest
    ⟨if r.1 then p :: next.removed else next.removed,
      (p, r.1) :: next.calls, next.registry⟩

/-- Loop body of `AudioRouterApp.get_active_applications`: keep node
objects whose `media.class` contains `"Stream/Output/Audio"`; the name
prefers `application.name`, falls back to `node.name`, then to
`"Unknown App"`, and appends `media.name` after `" - "` when that string
is non-empty (Python truthiness of `title`). -/
def appEntries : List PWObject → List (Option Nat × String)
  | [] => []
  | obj :: rest =>
    if obj.type == "PipeWire:Interface:Node" &&
        strContains obj.mediaClass "Stream/Output/Audio" then
      let processName :=
        obj.applicationName.getD (obj.nodeName.getD "Unknown App")
      let title := obj.mediaName
      let appName :=
        if title.isEmpty then processName
        else processName ++ " - " ++ title
      (obj.id, appName) :: appEntries rest
    else appEntries rest

/-- `AudioRouterApp.get_active_applications`: a failed or unparseable
dump yields `[]`. -/
def get_active_applications (dump : Dump) : List (Option Nat × String) :=
  match dump with
  | none => []
  | some objs => appEntries objs

/-- Loop body of `AudioRouterApp.get_microphones`: keep node objects
whose `media.class` contains `"Audio/Source"`; the name is `node.name`
with fallback `"Unknown Microphone"` — `application.name` and
`media.name` are not consulted on this path. -/
def micEntries : List PWObject → List (Option Nat × String)
  | [] => []
  | obj :: rest =>
    if obj.type == "PipeWire:Interface:Node" &&
        strContains obj.mediaClass "Audio/Source" then
      (obj.id, obj.nodeName.getD "Unknown Microphone") :: micEntries rest
    else micEntries rest

/-- `AudioRouterApp.get_microphones`: a failed or unparseable dump
yields `[]`. -/
def get_microphones (dump : Dump) : List (Option Nat × String) :=
  match dump with
  | none => []
  | some objs => micEntries objs

/-- Modelled from the spec: the display-name rule §4.1 states for every
classified node entry — prefer `props.application.name`, fall back to
`props.node.name`, then to a generated placeholder, and append
`props.media.name` as a suffix when present.  Stated here to compare
against what the code computes on each classification path. -/
def specDisplayName (placeholder : String) (obj : PWObject) : String :=
  let base := obj.applicationName.getD (obj.nodeName.getD placeholder)
  if obj.mediaName.isEmpty then base
  else base ++ " - " ++ obj.mediaName

example : create_link none true [] 5 10 = ⟨true, [(5, 10)], true⟩ := by
  decide

example : remove_link true [(5, 10)] 5 10 = (true, []) := by decide

example : remove_link true [] 5 10 = (false, []) := by decide

example :
    remove_all_links [true, false] [(1, 2), (3, 4)] =
      ([(1, 2), (3, 4)], []) := by decide

/-- `create_link` either leaves the registry alone or appends exactly the
requested pair at the end. -/
theorem create_link_registry_cases (dump : Dump) (cmdOk : Bool)
    (st : Registry) (o i : Nat) :
    (create_link dump cmdOk st o i).registry = st ∨
    (create_link dump cmdOk st o i).registry = st ++ [(o, i)] := by
  by_cases h : link_exists dump o i = true
  · left; simp [create_link, h]
  · cases cmdOk
    · left; simp [create_link, h]
    · right; simp [create_link, h]

/-- Claim C3: `create(output, input)` contract — when the link already
exists it returns `false` with the registry unchanged (and without
running the creation command); otherwise, when the creation command
exits 0 it appends the pair and returns `true`; on non-zero exit or
spawn failure it returns `false` with no registry mutation. -/
theorem C3_create_contract (dump : Dump) (cmdOk : Bool) (st : Registry)
    (o i : Nat) :
    (link_exists dump o i = true →
      create_link dump cmdOk st o i = ⟨false, st, false⟩) ∧
    (link_exists dump o i = false → cmdOk = true →
      create_link dump cmdOk st o i = ⟨true, st ++ [(o, i)], true⟩) ∧
    (link_exists dump o i = false → cmdOk = false →
      create_link dump cmdOk st o i = ⟨false, st, true⟩) := by
  refine ⟨fun h => ?_, fun h hc => ?_, fun h hc => ?_⟩
  · simp [create_link, h]
  · simp [create_link, h, hc]
  · simp [create_link, h, hc]

/-- Witness for C3 at concrete inputs: a dump holding the link blocks
the create; a failed dump plus exit 0 appends; a failed dump plus
non-zero exit mutates nothing. -/
theorem C3_create_contract_witness :
    create_link
        (some [⟨"PipeWire:Interface:Link", none, some 5, some 10, "",
          none, none, ""⟩]) true [] 5 10 = ⟨false, [], false⟩ ∧
    create_link none true [] 5 10 = ⟨true, [(5, 10)], true⟩ ∧
    create_link none false [] 5 10 = ⟨false, [], true⟩ :=
  ⟨(C3_create_contract _ true [] 5 10).1 (by decide),
   (C3_create_contract none true [] 5 10).2.1 rfl rfl,
   (C3_create_contract none false [] 5 10).2.2 rfl rfl⟩

/-- Claim C1, counterexample: with the deletion command exiting 0 and
the pair absent from the registry, `remove_link` returns `False` — the
Python `internal_links.remove` raises `ValueError`, the broad `except`
returns `False` — where the claim says it returns `true`. -/
theorem C1_counterexample :
    ¬ ((remove_link true ([] : Registry) 5 10).1 = true) ∧
    (remove_link true ([] : Registry) 5 10).2 = [] := by decide

/-- Claim C1, amended: on exit code 0, if the pair is present the call
returns `true` and erases its first occurrence; if the pair is absent
the call returns `false` (the registry erase raises and the handler
reports failure) with the registry unchanged; in a duplicate-free
registry the pair is gone afterwards either way. -/
theorem C1_remove_amended (st : Registry) (o i : Nat) :
    ((o, i) ∈ st → remove_link true st o i = (true, st.erase (o, i))) ∧
    ((o, i) ∉ st → remove_link true st o i = (false, st)) ∧
    (st.Nodup → (o, i) ∉ (remove_link true st o i).2) := by
  refine ⟨fun h => ?_, fun h => ?_, fun hnd => ?_⟩
  · simp [remove_link, h]
  · simp [remove_link, h]
  · by_cases h : (o, i) ∈ st
    · simpa [remove_link, h] using hnd.not_mem_erase
    · simp [remove_link, h]

/-- Witness for C1 (amended) at concrete registries: present pair
removed with `true`, absent pair reported `false`, pair gone from a
duplicate-free registry. -/
theorem C1_remove_amended_witness :
    remove_link true [(5, 10)] 5 10 =
      (true, ([(5, 10)] : Registry).erase (5, 10)) ∧
    remove_link true [(7, 8)] 5 10 = (false, [(7, 8)]) ∧
    (5, 10) ∉ (remove_link true [(5, 10)] 5 10).2 :=
  ⟨(C1_remove_amended [(5, 10)] 5 10).1 (by decide),
   (C1_remove_amended [(7, 8)] 5 10).2.1 (by decide),
   (C1_remove_amended [(5, 10)] 5 10).2.2 (by decide)⟩

/-- Claim C5: fail-open reads — a failed or unparseable dump makes
`link_exists` answer `false` rather than raising, and a `create_link`
issued in that state still runs the external creation command. -/
theorem C5_fail_open (cmdOk : Bool) (st : Registry) (o i : Nat) :
    link_exists none o i = false ∧
    (create_link none cmdOk st o i).attemptedCmd = true := by
  refine ⟨rfl, ?_⟩
  cases cmdOk <;> rfl

/-- Claim C10: frame property — `link_exists` leaves the registry
unchanged, and `create_link` preserves every existing entry in place,
appending at most the one new pair at the end. -/
theorem C10_frame (dump : Dump) (cmdOk : Bool) (st : Registry)
    (o i : Nat) :
    (link_exists_st dump o i st).2 = st ∧
    ((create_link dump cmdOk st o i).registry = st ∨
      (create_link dump cmdOk st o i).registry = st ++ [(o, i)]) :=
  ⟨rfl, create_link_registry_cases dump cmdOk st o i⟩

/-- The removal pass of `remove_all_links` attempts exactly the entries
of the copied registry, in their original order, whatever the deletion
commands return. -/
theorem removeAllPass_fst (oks : List Bool) (copy : List (Nat × Nat))
    (live : Registry) : (removeAllPass oks copy live).1 = copy := by
  induction copy generalizing oks live with
  | nil => rfl
  | cons p rest ih => simp [removeAllPass, ih]

/-- Claim C4: `remove_all_links` attempts one external removal per entry
present at call time, in insertion order and past failures, and leaves
the registry empty no matter how many deletions failed. -/
theorem C4_removeAll (oks : List Bool) (st : Registry) :
    (remove_all_links oks st).1 = st ∧ (remove_all_links oks st).2 = [] :=
  ⟨removeAllPass_fst oks st st, rfl⟩

/-- Claim C8: round-trip — for a pair with no existing link (neither in
the dump nor already in the registry) and both mutation commands
exiting 0, `create_link` then `remove_link` return `(true, true)` and
the registry no longer contains the pair. -/
theorem C8_roundtrip (dump : Dump) (st : Registry) (a b : Nat)
    (hex : link_exists dump a b = false) (hmem : (a, b) ∉ st) :
    (create_link dump true st a b).result = true ∧
    (remove_link true (create_link dump true st a b).registry a b).1 =
      true ∧
    (a, b) ∉
      (remove_link true (create_link dump true st a b).registry a b).2 := by
  have hreg : (create_link dump true st a b).registry = st ++ [(a, b)] := by
    simp [create_link, hex]
  have hm : (a, b) ∈ st ++ [(a, b)] := by simp
  have herase : (st ++ [(a, b)]).erase (a, b) = st := by
    rw [List.erase_append_right _ hmem, List.erase_cons_head]
    simp
  refine ⟨by simp [create_link, hex], ?_, ?_⟩
  · rw [hreg]; simp [remove_link, hm]
  · rw [hreg]
    simpa [remove_link, hm, herase] using hmem

/-- Witness for C8 at concrete inputs: a failed dump (hence no link
reported) and the empty registry. -/
theorem C8_roundtrip_witness :
    (create_link none true [] 5 10).result = true ∧
    (remove_link true (create_link none true [] 5 10).registry 5 10).1 =
      true ∧
    (5, 10) ∉
      (remove_link true (create_link none true [] 5 10).registry 5 10).2 :=
  C8_roundtrip none [] 5 10 rfl (by decide)

/-- Claim C2, counterexample: when the query command fails during both
calls (fail-open `link_exists`), two successful `create_link` calls for
the same pair append it twice — the registry holds a duplicate, and
after the second successful create the registry does not contain exactly
one `(1, 2)` entry. -/
theorem C2_counterexample :
    (create_link none true [] 1 2).result = true ∧
    (create_link none true (create_link none true [] 1 2).registry
        1 2).result = true ∧
    (create_link none true (create_link none true [] 1 2).registry
        1 2).registry = [(1, 2), (1, 2)] ∧
    ¬ (create_link none true (create_link none true [] 1 2).registry
        1 2).registry.Nodup := by
  decide

/-- One graph-faithful manager call preserves registry uniqueness. -/
theorem stepOp_nodup (st : Registry) (op : Op) (hnd : st.Nodup)
    (hf : faithfulStep st op = true) : (stepOp st op).Nodup := by
  cases op with
  | createOp dump ok o i =>
    by_cases hex : link_exists dump o i = true
    · simpa [stepOp, create_link, hex] using hnd
    · have hmem : (o, i) ∉ st := by
        simp [faithfulStep, hex] at hf
        exact hf
      cases ok
      · simpa [stepOp, create_link, hex] using hnd
      · simp only [stepOp, create_link, hex]
        simp only [if_false, Bool.false_eq_true, if_true]
        refine List.nodup_append.mpr ⟨hnd, List.nodup_singleton _, ?_⟩
        intro x hx hx2
        simp only [List.mem_singleton] at hx2
        subst hx2
        exact hmem hx
  | removeOp ok o i =>
    cases ok
    · simpa [stepOp, remove_link] using hnd
    · by_cases hm : (o, i) ∈ st
      · simpa [stepOp, remove_link, hm] using hnd.erase _
      · simpa [stepOp, remove_link, hm] using hnd
  | removeAllOp oks =>
    simp [stepOp, remove_all_links]

/-- A graph-faithful sequence of manager calls preserves registry
uniqueness. -/
theorem runOps_nodup (ops : List Op) (st : Registry) (hnd : st.Nodup)
    (hf : faithfulRun st ops = true) : (runOps st ops).Nodup := by
  induction ops generalizing st with
  | nil => exact hnd
  | cons op rest ih =>
    rw [faithfulRun, Bool.and_eq_true] at hf
    exact ih _ (stepOp_nodup st op hnd hf.1) hf.2

/-- Claim C2, amended: the uniqueness invariant holds for graph-faithful
runs — runs in which every `create` queries a dump that still reports
each pair already in the registry (a failed query is what breaks this:
fail-open `link_exists` lets a successful duplicate create through).
From the empty registry, any faithful sequence of create, remove and
removeAll calls yields a duplicate-free registry, and a further
successful faithful create of `(a, b)` leaves exactly one `(a, b)`
entry. -/
theorem C2_unique_amended (ops : List Op)
    (hf : faithfulRun [] ops = true) :
    (runOps [] ops).Nodup ∧
    ∀ dump ok a b,
      faithfulStep (runOps [] ops) (Op.createOp dump ok a b) = true →
      (create_link dump ok (runOps [] ops) a b).result = true →
      (create_link dump ok (runOps [] ops) a b).registry.count (a, b) =
        1 := by
  have hnd := runOps_nodup ops [] List.nodup_nil hf
  refine ⟨hnd, ?_⟩
  intro dump ok a b hstep hres
  by_cases hex : link_exists dump a b = true
  · simp [create_link, hex] at hres
  · have hmem : (a, b) ∉ runOps [] ops := by
      simp [faithfulStep, hex] at hstep
      exact hstep
    cases ok
    · simp [create_link, hex] at hres
    · have hreg : (create_link dump true (runOps [] ops) a b).registry =
          runOps [] ops ++ [(a, b)] := by
        simp [create_link, hex]
      rw [hreg, List.count_append, List.count_eq_zero.mpr hmem]
      simp

/-- Witness for C2 (amended): one faithful create of `(1, 2)` from the
empty registry, then a faithful successful create of `(3, 4)`. -/
theorem C2_unique_amended_witness :
    (runOps [] [Op.createOp none true 1 2]).Nodup ∧
    (create_link none true (runOps [] [Op.createOp none true 1 2])
        3 4).registry.count (3, 4) = 1 :=
  ⟨(C2_unique_amended [Op.createOp none true 1 2] (by decide)).1,
   (C2_unique_amended [Op.createOp none true 1 2] (by decide)).2
     none true 3 4 (by decide) (by decide)⟩

/-- The inner batch-create pass calls `create_link` once per target, in
list order, for the fixed source. -/
theorem targetPass_calls_fst (s : Nat) (ts : List Nat) :
    ∀ env st, (targetPass s ts env st).calls.map Prod.fst =
      ts.map fun t => (s, t) := by
  induction ts with
  | nil => intro env st; rfl
  | cons t ts ih => intro env st; simp [targetPass, ih]

/-- The inner batch-create pass makes one call per target. -/
theorem targetPass_calls_length (s : Nat) (ts : List Nat) :
    ∀ env st, (targetPass s ts env st).calls.length = ts.length := by
  induction ts with
  | nil => intro env st; rfl
  | cons t ts ih => intro env st; simp [targetPass, ih]

/-- The inner batch-create pass accumulates exactly the number of calls
that returned `true`. -/
theorem targetPass_count (s : Nat) (ts : List Nat) :
    ∀ env st, (targetPass s ts env st).count =
      ((targetPass s ts env st).calls.filter fun c => c.2).length := by
  induction ts with
  | nil => intro env st; rfl
  | cons t ts ih =>
    intro env st
    cases hres : (create_link (headEnv env).1
        (headEnv env).2 st s t).result <;>
      simp [targetPass, hres, ih, Nat.add_comm]

/-- The inner batch-create pass only ever appends to the registry. -/
theorem targetPass_registry (s : Nat) (ts : List Nat) :
    ∀ env st, ∃ tl, (targetPass s ts env st).registry = st ++ tl := by
  induction ts with
  | nil => intro env st; exact ⟨[], by simp [targetPass]⟩
  | cons t ts ih =>
    intro env st
    obtain ⟨tl, htl⟩ := ih env.tail
      (create_link (headEnv env).1 (headEnv env).2 st s t).registry
    have hstep : (targetPass s (t :: ts) env st).registry =
        (targetPass s ts env.tail
          (create_link (headEnv env).1
            (headEnv env).2 st s t).registry).registry := rfl
    rcases create_link_registry_cases (headEnv env).1
        (headEnv env).2 st s t with hc | hc
    · exact ⟨tl, by rw [hstep, htl, hc]⟩
    · refine ⟨(s, t) :: tl, ?_⟩
      rw [hstep, htl, hc, List.append_assoc]
      rfl

/-- The outer batch-create pass calls `create_link` once per pair of the
Cartesian product of sources and targets, source-major, in order. -/
theorem sourcePass_calls_fst (ss ts : List Nat) :
    ∀ env st, (sourcePass ss ts env st).calls.map Prod.fst =
      ss.flatMap fun s => ts.map fun t => (s, t) := by
  induction ss with
  | nil => intro env st; rfl
  | cons s ss ih =>
    intro env st
    simp [sourcePass, targetPass_calls_fst, ih]

/-- The outer batch-create pass makes `|sources| * |targets|` calls. -/
theorem sourcePass_calls_length (ss ts : List Nat) :
    ∀ env st, (sourcePass ss ts env st).calls.length =
      ss.length * ts.length := by
  induction ss with
  | nil => intro env st; simp [sourcePass]
  | cons s ss ih =>
    intro env st
    simp [sourcePass, targetPass_calls_length, ih, Nat.succ_mul,
      Nat.add_comm]

/-- The outer batch-create pass accumulates exactly the number of calls
that returned `true`. -/
theorem sourcePass_count (ss ts : List Nat) :
    ∀ env st, (sourcePass ss ts env st).count =
      ((sourcePass ss ts env st).calls.filter fun c => c.2).length := by
  induction ss with
  | nil => intro env st; rfl
  | cons s ss ih =>
    intro env st
    simp [sourcePass, targetPass_count, ih]

/-- The outer batch-create pass only ever appends to the registry. -/
theorem sourcePass_registry (ss ts : List Nat) :
    ∀ env st, ∃ tl, (sourcePass ss ts env st).registry = st ++ tl := by
  induction ss with
  | nil => intro env st; exact ⟨[], by simp [sourcePass]⟩
  | cons s ss ih =>
    intro env st
    obtain ⟨tl1, htl1⟩ := targetPass_registry s ts env st
    obtain ⟨tl2, htl2⟩ := ih (targetPass s ts env st).env
      (targetPass s ts env st).registry
    have hstep : (sourcePass (s :: ss) ts env st).registry =
        (sourcePass ss ts (targetPass s ts env st).env
          (targetPass s ts env st).registry).registry := rfl
    exact ⟨tl1 ++ tl2, by rw [hstep, htl2, htl1, List.append_assoc]⟩

/-- Claim C6: `create_links` calls `create_link` exactly once per pair
of the Cartesian product sources × targets, returns a success count
equal to the number of calls that returned `true` and bounded by
`|sources| * |targets|`, and never rolls back earlier registry
appends — the starting registry stays as an intact front segment. -/
theorem C6_batchCreate (sources targets : List Nat) (env : CreateEnv)
    (st : Registry) :
    (create_links env st sources targets).calls.map Prod.fst =
      (sources.flatMap fun s => targets.map fun t => (s, t)) ∧
    (create_links env st sources targets).count =
      ((create_links env st sources targets).calls.filter
        fun c => c.2).length ∧
    (create_links env st sources targets).count ≤
      sources.length * targets.length ∧
    ∃ tl, (create_links env st sources targets).registry = st ++ tl := by
  refine ⟨sourcePass_calls_fst sources targets env st,
    sourcePass_count sources targets env st, ?_,
    sourcePass_registry sources targets env st⟩
  rw [create_links, sourcePass_count sources targets env st,
    ← sourcePass_calls_length sources targets env st]
  exact List.length_filter_le _ _

/-- Claim C7: `remove_selected` calls `remove_link` once per selected
link, in order, and reports as removed exactly the sub-sequence of the
input whose calls returned `true` (input order minus failures). -/
theorem C7_batchRemove (sel : List (Nat × Nat)) (oks : List Bool)
    (st : Registry) :
    (remove_selected oks st sel).calls.map Prod.fst = sel ∧
    (remove_selected oks st sel).removed =
      ((remove_selected oks st sel).calls.filter
        fun c => c.2).map Prod.fst ∧
    List.Sublist (remove_selected oks st sel).removed sel := by
  induction sel generalizing oks st with
  | nil => exact ⟨rfl, rfl, List.nil_sublist _⟩
  | cons p rest ih =>
    obtain ⟨ih1, ih2, ih3⟩ :=
      ih oks.tail (remove_link (headOk oks) st p.1 p.2).2
    refine ⟨by simp [remove_selected, ih1], ?_, ?_⟩
    · cases hres : (remove_link (headOk oks) st p.1 p.2).1 <;>
        simp [remove_selected, hres, ih2]
    · cases hres : (remove_link (headOk oks) st p.1 p.2).1
      · simpa [remove_selected, hres] using ih3.cons p
      · simpa [remove_selected, hres] using ih3.cons₂ p

/-- A node object classified `AudioSource` (`"Audio/Source"` in its
media class) that also carries an application name and a media name:
the code's microphone path ignores both of the latter. -/
def micObj : PWObject :=
  ⟨"PipeWire:Interface:Node", some 42, none, none, "Audio/Source",
    some "Music Player", some "alsa_input.mic", "Now Playing"⟩

/-- A node object classified `AppAudioOutput`
(`"Stream/Output/Audio"` in its media class). -/
def appObj : PWObject :=
  ⟨"PipeWire:Interface:Node", some 7, none, none, "Stream/Output/Audio",
    some "Firefox", none, "Video Title"⟩

/-- Claim C9, counterexample: for the `AudioSource` node `micObj` the
code reports the name `"alsa_input.mic"` (its `node.name`), while the
claim's rule — prefer `application.name`, append `media.name` — yields
`"Music Player - Now Playing"`. -/
theorem C9_counterexample :
    get_microphones (some [micObj]) = [(some 42, "alsa_input.mic")] ∧
    specDisplayName "Unknown Microphone" micObj =
      "Music Player - Now Playing" ∧
    ("alsa_input.mic" : String) ≠ "Music Player - Now Playing" := by
  refine ⟨?_, ?_, ?_⟩ <;> decide

/-- Entries survive prepending one more object to the application
scan. -/
theorem mem_appEntries_cons (x : Option Nat × String) (o : PWObject)
    (rest : List PWObject) (h : x ∈ appEntries rest) :
    x ∈ appEntries (o :: rest) := by
  by_cases hc : (o.type == "PipeWire:Interface:Node" &&
      strContains o.mediaClass "Stream/Output/Audio") = true
  · simp only [appEntries, hc, if_true]
    exact List.mem_cons_of_mem _ h
  · simpa only [appEntries, hc, if_false] using h

/-- Entries survive prepending one more object to the microphone
scan. -/
theorem mem_micEntries_cons (x : Option Nat × String) (o : PWObject)
    (rest : List PWObject) (h : x ∈ micEntries rest) :
    x ∈ micEntries (o :: rest) := by
  by_cases hc : (o.type == "PipeWire:Interface:Node" &&
      strContains o.mediaClass "Audio/Source") = true
  · simp only [micEntries, hc, if_true]
    exact List.mem_cons_of_mem _ h
  · simpa only [micEntries, hc, if_false] using h

/-- Claim C9, amended: for every node entry classified `AppAudioOutput`
(`"Stream/Output/Audio"` in its media class) the code's display name
follows the spec rule — prefer `props.application.name`, fall back to
`props.node.name`, then `"Unknown App"`, appending `props.media.name`
after `" - "` when non-empty; for every entry classified `AudioSource`
(`"Audio/Source"`) the display name is `props.node.name` with fallback
`"Unknown Microphone"`, and `props.application.name` / `props.media.name`
are not consulted. -/
theorem C9_names_amended (objs : List PWObject) (obj : PWObject)
    (hmem : obj ∈ objs) :
    (obj.type = "PipeWire:Interface:Node" →
      strContains obj.mediaClass "Stream/Output/Audio" = true →
      (obj.id, specDisplayName "Unknown App" obj) ∈
        get_active_applications (some objs)) ∧
    (obj.type = "PipeWire:Interface:Node" →
      strContains obj.mediaClass "Audio/Source" = true →
      (obj.id, obj.nodeName.getD "Unknown Microphone") ∈
        get_microphones (some objs)) := by
  induction objs with
  | nil => cases hmem
  | cons o rest ih =>
    rcases List.mem_cons.mp hmem with heq | hmem2
    · subst heq
      constructor
      · intro ht hc
        simp [get_active_applications, appEntries, ht, hc,
          specDisplayName]
      · intro ht hc
        simp [get_microphones, micEntries, ht, hc]
    · constructor
      · intro ht hc
        exact mem_appEntries_cons _ o rest ((ih hmem2).1 ht hc)
      · intro ht hc
        exact mem_micEntries_cons _ o rest ((ih hmem2).2 ht hc)

/-- Witness for C9 (amended) on a concrete dump holding one application
node and one microphone node. -/
theorem C9_names_amended_witness :
    (appObj.id, specDisplayName "Unknown App" appObj) ∈
      get_active_applications (some [appObj, micObj]) ∧
    (micObj.id, micObj.nodeName.getD "Unknown Microphone") ∈
      get_microphones (some [appObj, micObj]) :=
  ⟨(C9_names_amended [appObj, micObj] appObj (by decide)).1 rfl
      (by decide),
   (C9_names_amended [appObj, micObj] micObj (by decide)).2 rfl
      (by decide)⟩

end SoundStreamer
